import Mathlib

/-!
Verification of the single-iteration agent executor
(`runNextIteration` in agent_executor_precompile.py and the two
`executeAgent` variants in agent_execitor_precompile.py / precompile.py)
against its natural-language specification.

The embedding models Python dictionaries as association lists with
insertion-order semantics (`pyGet`, `pySet`, `pyDict`), external
collaborators (model handle, reasoning engine, ABI encoder) as record
values holding functions, Python runtime exceptions (`KeyError`,
`AttributeError`) alongside the specification's error taxonomy in one
inductive `IterError`, and records an event trace of collaborator calls
so that claims of the form "X is never invoked" are statable.
-/

/-- Python `dict.get(k)`: the value stored under key `k`, or `none` when
the key is absent (no exception is raised). -/
def pyGet {α : Type} : List (String × α) → String → Option α
  | [], _ => none
  | p :: rest, k => if p.1 = k then some p.2 else pyGet rest k

/-- Python `d[k] = v`: update the existing entry in place (keeping its
position, as CPython dicts preserve first-insertion order) or append a
fresh entry at the end. -/
def pySet {α : Type} : List (String × α) → String → α → List (String × α)
  | [], k, v => [(k, v)]
  | p :: rest, k, v => if p.1 = k then (k, v) :: rest else p :: pySet rest k v

/-- A Python dict comprehension over a list of key/value pairs: later
occurrences of a key overwrite earlier ones, first occurrence fixes the
position. -/
def pyDict {α : Type} (l : List (String × α)) : List (String × α) :=
  l.foldl (fun d p => pySet d p.1 p.2) []

/-- One declared parameter of a tool's input schema (`paramDescriptions`
entries in the source): a name and a type tag understood by the encoder. -/
structure ParamDescription where
  name : String
  type : String
deriving DecidableEq

/-- `tool.inputDescription`: the ordered parameter schema. -/
structure InputDescription where
  paramDescriptions : List ParamDescription
deriving DecidableEq

/-- A tool object as the source reads it: `tool.name()`, `tool.description()`,
`tool.inputDescription()` are modelled as field reads. -/
structure Tool where
  name : String
  description : String
  inputDescription : InputDescription
deriving DecidableEq

/-- The per-tool metadata dict built by `runNextIteration`
(`{'name': ..., 'description': ..., 'inputDescription': ...}`). -/
structure ToolMetadata where
  name : String
  description : String
  inputDescription : InputDescription
deriving DecidableEq

/-- One raw `(name, value)` pair from the parsed model output
(an element of `json.parse(nextStep.params).array()`). -/
structure RawParam where
  name : String
  value : String
deriving DecidableEq

/-- The structured next step produced by `reasoningEngine.parse`; the
source's `nextStep.isDone()` branch corresponds to the `done` variant,
and `toolName` / raw params / `reasoning` to the `toolCall` variant.
The source's intermediate `json.parse(nextStep.params)` step is folded
into the collaborator: params arrive already structured. -/
inductive NextStep where
  | done (answer : String)
  | toolCall (toolName : String) (params : List RawParam) (reasoning : String)
deriving DecidableEq

/-- `IERCAgentTool.ParamValue(type=..., value=...)`: one resolved,
encoded parameter. Encoded bytes are modelled as strings. -/
structure IERCAgentTool.ParamValue where
  type : String
  value : String
deriving DecidableEq

/-- `IERCAgentTool.Input(params=..., abiEncodedParams=...)`. -/
structure IERCAgentTool.Input where
  params : List (String × IERCAgentTool.ParamValue)
  abiEncodedParams : String
deriving DecidableEq

/-- The model handle stored in the model registry; `run` maps a prompt to
raw model output text. -/
structure Llm where
  run : String → String

/-- The reasoning engine stored in the reasoning registry, as used by
`runNextIteration` (its `buildPrompt` receives the tools-metadata list). -/
structure ReasoningEngine where
  buildPrompt : String → List ToolMetadata → String → String → String
  parse : String → NextStep

/-- The external ABI encoder collaborator: `encode` is the two-argument
`abi.encode(value, type)` call, `encodeAll` the aggregate encode of the
collected encoded values. -/
structure Abi where
  encode : String → String → String
  encodeAll : List String → String

/-- The module-level globals of agent_executor_precompile.py that
`runNextIteration` reads: the two registries and the encoder. -/
structure IterState where
  modelRegistry : List (String × Llm)
  reasoningRegistry : List (String × ReasoningEngine)
  abi : Abi

/-- The registry key `Engines.RE_ACT`. -/
def Engines.RE_ACT : String := ("RE_ACT")

/-- Errors an iteration can surface. The first two constructors model
the Python runtime exceptions the source code actually lets escape
(`KeyError` from `d[k]`, `AttributeError` from attribute access on
`None`); the remaining constructors are the specification's error
taxonomy (section 7), included so that claims about them are statable —
the source never constructs them. -/
inductive IterError where
  | keyError (key : String)
  | attributeError (attr : String)
  | unknownModel (id : String)
  | unknownReasoningStrategy (id : String)
  | unknownTool (name : String)
  | unknownParameter (name : String)
  | missingParameter (name : String)
deriving DecidableEq

/-- Trace events recording which collaborator operations an iteration
actually invoked, in order. -/
inductive Event where
  | buildPromptCalled
  | llmRunCalled
  | parseCalled
  | toolLookup (name : String)
  | encodeCalled (name : String)
  | encodeAllCalled
deriving DecidableEq

/-- The result record built by `runNextIteration` through keyword
arguments; fields not supplied at a construction site stay `none`. -/
structure AgentIterationResult where
  isFinalAnswer : Bool
  finalAnswer : Option String := none
  tool : Option ToolMetadata := none
  toolInput : Option IERCAgentTool.Input := none
  agentReasoning : Option String := none
deriving DecidableEq

/-- The `AgentIterationResult(isFinalAnswer=True, finalAnswer=...)` construction
site of the source. -/
def AgentIterationResult.final (answer : String) : AgentIterationResult :=
  { isFinalAnswer := true, finalAnswer := some answer }

/-- The `AgentIterationResult(isFinalAnswer=False, tool=..., toolInput=...,
agentReasoning=...)` construction site of the source. -/
def AgentIterationResult.pending (tool : ToolMetadata) (input : IERCAgentTool.Input)
    (reasoning : String) : AgentIterationResult :=
  { isFinalAnswer := false, tool := some tool, toolInput := some input,
    agentReasoning := some reasoning }

/-- Full outcome of one call to `runNextIteration`: the returned value or
escaping exception, the collaborator-call trace, and the final values of
the globals and the supplied catalog (threaded to make mutation, or its
absence, observable). -/
structure IterOutcome where
  result : Except IterError AgentIterationResult
  events : List Event
  state : IterState
  tools : List Tool

/-- The metadata dict the source builds for one tool. -/
def toolMetadataOf (tool : Tool) : ToolMetadata :=
  ⟨tool.name, tool.description, tool.inputDescription⟩

/-- `toolsMetadata = [{'name': tool.name(), ...} for tool in tools]`. -/
def toolsMetadataOf (tools : List Tool) : List ToolMetadata :=
  tools.map toolMetadataOf

/-- `toolsByName = {tool.name: tool for tool in toolsMetadata}`. -/
def toolsByNameOf (tools : List Tool) : List (String × ToolMetadata) :=
  pyDict ((toolsMetadataOf tools).map (fun tool => (tool.name, tool)))

/-- `toolInputByName = {input.name: input for input in
tool.inputDescription.paramDescriptions}`. -/
def toolInputByNameOf (tool : ToolMetadata) : List (String × ParamDescription) :=
  pyDict (tool.inputDescription.paramDescriptions.map (fun input => (input.name, input)))

/-- The source's resolution loop: for each raw param, `toolInputByName[param.name]`
(a bare `KeyError` when absent), then `abi.encode(param.value, type)`, then
insertion into the `parsedParams` dict. Also returns the encode events the
loop performed before returning or raising. -/
def resolveParams (abi : Abi) (toolInputByName : List (String × ParamDescription)) :
    List RawParam → List (String × IERCAgentTool.ParamValue) →
      Except IterError (List (String × IERCAgentTool.ParamValue)) × List Event
  | [], parsedParams => (Except.ok parsedParams, [])
  | param :: rest, parsedParams =>
    match pyGet toolInputByName param.name with
    | none => (Except.error (IterError.keyError param.name), [])
    | some paramDescription =>
      let out := resolveParams abi toolInputByName rest
        (pySet parsedParams param.name
          ⟨paramDescription.type, abi.encode param.value paramDescription.type⟩)
      (out.1, Event.encodeCalled param.name :: out.2)

/-- Shallow embedding of `runNextIteration(modelId, basePrompt, tools,
agentReasoning, prompt)` from agent_executor_precompile.py. Registry
lookups use `dict.get` (silent `none`); calling a method on a `none`
handle surfaces as the corresponding `AttributeError`, at the same
program point as in Python. -/
def runNextIteration (s : IterState) (modelId basePrompt : String) (tools : List Tool)
    (agentReasoning prompt : String) : IterOutcome :=
  let llm := pyGet s.modelRegistry modelId
  let reasoningEngine := pyGet s.reasoningRegistry Engines.RE_ACT
  let toolsMetadata := toolsMetadataOf tools
  let toolsByName := toolsByNameOf tools
  match reasoningEngine with
  | none => ⟨Except.error (IterError.attributeError ("buildPrompt")), [], s, tools⟩
  | some engine =>
    let llmPrompt := engine.buildPrompt basePrompt toolsMetadata agentReasoning prompt
    match llm with
    | none =>
      ⟨Except.error (IterError.attributeError ("run")), [Event.buildPromptCalled], s, tools⟩
    | some llmHandle =>
      let nextStep := engine.parse (llmHandle.run llmPrompt)
      match nextStep with
      | NextStep.done answer =>
        ⟨Except.ok (AgentIterationResult.final answer),
          [Event.buildPromptCalled, Event.llmRunCalled, Event.parseCalled], s, tools⟩
      | NextStep.toolCall toolName rawParams reasoning =>
        match pyGet toolsByName toolName with
        | none =>
          ⟨Except.error (IterError.attributeError ("inputDescription")),
            [Event.buildPromptCalled, Event.llmRunCalled, Event.parseCalled,
              Event.toolLookup toolName], s, tools⟩
        | some tool =>
          let resolved := resolveParams s.abi (toolInputByNameOf tool) rawParams []
          match resolved.1 with
          | Except.error e =>
            ⟨Except.error e,
              [Event.buildPromptCalled, Event.llmRunCalled, Event.parseCalled,
                Event.toolLookup toolName] ++ resolved.2, s, tools⟩
          | Except.ok parsedParams =>
            let abiEncodedParams := s.abi.encodeAll (parsedParams.map (fun p => p.2.value))
            ⟨Except.ok (AgentIterationResult.pending tool ⟨parsedParams, abiEncodedParams⟩ reasoning),
              [Event.buildPromptCalled, Event.llmRunCalled, Event.parseCalled,
                Event.toolLookup toolName] ++ resolved.2 ++ [Event.encodeAllCalled], s, tools⟩

/-- The reasoning engine as used by the two `executeAgent` variants: their
`buildPrompt` receives the raw tool list, not the metadata list. -/
structure ReasoningEngineT where
  buildPrompt : String → List Tool → String → String → String
  parse : String → NextStep

/-- The module-level globals read by the `executeAgent` variants. -/
structure ExecState where
  modelRegistry : List (String × Llm)
  reasoningRegistry : List (String × ReasoningEngineT)
  abi : Abi

/-- The result record built by the `executeAgent` variants through keyword
arguments; fields a construction site does not mention stay `none`.
agent_execitor_precompile.py populates `toolInput`, precompile.py
populates `params` instead. -/
structure AgentExecResult where
  isFinalAnswer : Bool
  finalAnswer : Option String := none
  tool : Option Tool := none
  toolInput : Option IERCAgentTool.Input := none
  params : Option (List (String × IERCAgentTool.ParamValue)) := none
  agentReasoning : Option String := none
deriving DecidableEq

/-- The final-answer construction shared by both `executeAgent` variants. -/
def AgentExecResult.final (answer : String) : AgentExecResult :=
  { isFinalAnswer := true, finalAnswer := some answer }

/-- The tool-call construction of `executeAgent` in
agent_execitor_precompile.py: params and the aggregate payload wrapped in
`IERCAgentTool.Input`. -/
def AgentExecResult.pendingWithInput (tool : Tool) (input : IERCAgentTool.Input)
    (reasoning : String) : AgentExecResult :=
  { isFinalAnswer := false, tool := some tool, toolInput := some input,
    agentReasoning := some reasoning }

/-- The tool-call construction of `executeAgent` in precompile.py: the bare
params mapping, no aggregate payload. -/
def AgentExecResult.pendingWithParams (tool : Tool)
    (parsedParams : List (String × IERCAgentTool.ParamValue))
    (reasoning : String) : AgentExecResult :=
  { isFinalAnswer := false, tool := some tool, params := some parsedParams,
    agentReasoning := some reasoning }

/-- `toolsByName = {tool.name: tool for tool in tools}` as built by both
`executeAgent` variants (over the raw tool list, not metadata). -/
def rawToolsByNameOf (tools : List Tool) : List (String × Tool) :=
  pyDict (tools.map (fun tool => (tool.name, tool)))

/-- `toolInputByName` as built by the `executeAgent` variants, indexing the
schema of a raw `Tool`. -/
def rawToolInputByNameOf (tool : Tool) : List (String × ParamDescription) :=
  pyDict (tool.inputDescription.paramDescriptions.map (fun input => (input.name, input)))

/-- Shallow embedding of `executeAgent(modelId, agentName, agentDescription,
tools, agentReasoning, prompt)` from agent_execitor_precompile.py. The
`agentName` argument is unused by the source body. -/
def AgentExecitor.executeAgent (s : ExecState) (modelId agentName agentDescription : String)
    (tools : List Tool) (agentReasoning prompt : String) :
    Except IterError AgentExecResult :=
  let toolsByName := rawToolsByNameOf tools
  let llm := pyGet s.modelRegistry modelId
  let reasoningEngine := pyGet s.reasoningRegistry Engines.RE_ACT
  match reasoningEngine with
  | none => Except.error (IterError.attributeError ("buildPrompt"))
  | some engine =>
    let llmPrompt := engine.buildPrompt agentDescription tools agentReasoning prompt
    match llm with
    | none => Except.error (IterError.attributeError ("run"))
    | some llmHandle =>
      let nextStep := engine.parse (llmHandle.run llmPrompt)
      match nextStep with
      | NextStep.done answer => Except.ok (AgentExecResult.final answer)
      | NextStep.toolCall toolName rawParams reasoning =>
        match pyGet toolsByName toolName with
        | none => Except.error (IterError.attributeError ("inputDescription"))
        | some tool =>
          match (resolveParams s.abi (rawToolInputByNameOf tool) rawParams []).1 with
          | Except.error e => Except.error e
          | Except.ok parsedParams =>
            let abiEncodedParams := s.abi.encodeAll (parsedParams.map (fun p => p.2.value))
            Except.ok (AgentExecResult.pendingWithInput tool ⟨parsedParams, abiEncodedParams⟩ reasoning)

/-- Shallow embedding of `executeAgent` from precompile.py. Identical to the
agent_execitor_precompile.py variant up to the tool-call construction: it
returns the params mapping directly (keyword `params=`) and computes no
aggregate payload. Its `ParamValue` construction passes the encoded value
positionally; it is read as the `value` field. -/
def Precompile.executeAgent (s : ExecState) (modelId agentName agentDescription : String)
    (tools : List Tool) (agentReasoning prompt : String) :
    Except IterError AgentExecResult :=
  let toolsByName := rawToolsByNameOf tools
  let llm := pyGet s.modelRegistry modelId
  let reasoningEngine := pyGet s.reasoningRegistry Engines.RE_ACT
  match reasoningEngine with
  | none => Except.error (IterError.attributeError ("buildPrompt"))
  | some engine =>
    let llmPrompt := engine.buildPrompt agentDescription tools agentReasoning prompt
    match llm with
    | none => Except.error (IterError.attributeError ("run"))
    | some llmHandle =>
      let nextStep := engine.parse (llmHandle.run llmPrompt)
      match nextStep with
      | NextStep.done answer => Except.ok (AgentExecResult.final answer)
      | NextStep.toolCall toolName rawParams reasoning =>
        match pyGet toolsByName toolName with
        | none => Except.error (IterError.attributeError ("inputDescription"))
        | some tool =>
          match (resolveParams s.abi (rawToolInputByNameOf tool) rawParams []).1 with
          | Except.error e => Except.error e
          | Except.ok parsedParams =>
            Except.ok (AgentExecResult.pendingWithParams tool parsedParams reasoning)

/-- Equality of iteration results is decidable; used to evaluate concrete
scenarios. -/
instance {ε α : Type} [DecidableEq ε] [DecidableEq α] : DecidableEq (Except ε α) := fun a b =>
  match a, b with
  | Except.ok x, Except.ok y =>
    if h : x = y then Decidable.isTrue (by rw [h])
    else Decidable.isFalse (fun hc => h (by cases hc; rfl))
  | Except.error x, Except.error y =>
    if h : x = y then Decidable.isTrue (by rw [h])
    else Decidable.isFalse (fun hc => h (by cases hc; rfl))
  | Except.ok _, Except.error _ => Decidable.isFalse (fun hc => Except.noConfusion hc)
  | Except.error _, Except.ok _ => Decidable.isFalse (fun hc => Except.noConfusion hc)

/-- The `ParamValue` the resolution loop body builds for one raw parameter
whose name resolves in the schema dict (the fallback branch is never
reached when the lookup succeeds). -/
def resolveOne (abi : Abi) (sd : List (String × ParamDescription)) (p : RawParam) :
    IERCAgentTool.ParamValue :=
  match pyGet sd p.name with
  | some d => ⟨d.type, abi.encode p.value d.type⟩
  | none => ⟨p.name, abi.encode p.value p.name⟩

/-- The parameter resolution and aggregate-encoding stage of
`runNextIteration` in isolation, exactly as the source performs it for one
tool call: the loop over raw params followed by the aggregate encode over
the collected encoded values, producing the `IERCAgentTool.Input` carried
by the iteration result. -/
def resolveAndEncode (abi : Abi) (tool : ToolMetadata) (rawParams : List RawParam) :
    Except IterError IERCAgentTool.Input :=
  match (resolveParams abi (toolInputByNameOf tool) rawParams []).1 with
  | Except.error e => Except.error e
  | Except.ok parsedParams =>
    Except.ok ⟨parsedParams, abi.encodeAll (parsedParams.map (fun p => p.2.value))⟩

/-- Agreement relation between the results of the two `executeAgent`
variants: identical escaping errors, identical shared fields, with the
agent_execitor_precompile.py variant carrying the params mapping inside
`toolInput` together with the aggregate payload while the precompile.py
variant carries the same mapping in `params` and computes no aggregate. -/
def agreeExec : Except IterError AgentExecResult → Except IterError AgentExecResult → Prop
  | Except.error e1, Except.error e2 => e1 = e2
  | Except.ok r1, Except.ok r2 =>
    r1.isFinalAnswer = r2.isFinalAnswer ∧ r1.finalAnswer = r2.finalAnswer ∧
      r1.tool = r2.tool ∧ r1.agentReasoning = r2.agentReasoning ∧
      r2.params = Option.map IERCAgentTool.Input.params r1.toolInput ∧
      r1.params = none ∧ r2.toolInput = none
  | _, _ => False

/-- The `transfer` tool schema used by the specification's own scenarios:
parameter `to` of type address, then `amount` of type integer. -/
def transferSchema : InputDescription := ⟨[⟨"to", "address"⟩, ⟨"amount", "integer"⟩]⟩

/-- The `transfer` tool of the specification's scenarios. -/
def transferTool : Tool := ⟨"transfer", "transfer tokens", transferSchema⟩

/-- Metadata dict for `transferTool`. -/
def transferMeta : ToolMetadata := toolMetadataOf transferTool

/-- A concrete encoder: per-value encoding tags the value with its type,
aggregate encoding joins with commas. Chosen so that distinct argument
orders give distinct aggregate bytes. -/
def sampleAbi : Abi := ⟨fun v t => v ++ (":") ++ t, fun l => String.intercalate (",") l⟩

/-- A concrete model handle. -/
def sampleLlm : Llm := ⟨fun _ => "raw model output"⟩

/-- A reasoning engine whose parse yields a fixed next step. -/
def stepEngine (step : NextStep) : ReasoningEngine :=
  ⟨fun _ _ _ _ => "composed", fun _ => step⟩

/-- Globals with the model registered under key `model` and the fixed-step
engine registered under `RE_ACT`. -/
def stateFor (step : NextStep) : IterState :=
  ⟨[("model", sampleLlm)], [(Engines.RE_ACT, stepEngine step)], sampleAbi⟩

/-- Globals with an empty model registry, so any model identifier misses. -/
def noLlmStateFor (step : NextStep) : IterState :=
  ⟨[], [(Engines.RE_ACT, stepEngine step)], sampleAbi⟩

/-- Raw params naming exactly the schema names but in swapped order
(the specification's order-stability scenario). -/
def swapParams : List RawParam := [⟨"amount", "100"⟩, ⟨"to", "0xABC"⟩]

/-- A tool call with the swapped-order raw params. -/
def stepSchemaOrderSwap : NextStep := NextStep.toolCall ("transfer") swapParams ("because")

/-- Raw params missing the required `to` parameter. -/
def missingParams : List RawParam := [⟨"amount", "100"⟩]

/-- A tool call missing the required `to` parameter. -/
def stepMissingTo : NextStep := NextStep.toolCall ("transfer") missingParams ("because")

/-- Raw params with the extra `memo` name absent from the schema. -/
def extraParams : List RawParam := [⟨"amount", "100"⟩, ⟨"to", "0xABC"⟩, ⟨"memo", "hi"⟩]

/-- A tool call carrying the extra `memo` parameter. -/
def stepExtraMemo : NextStep := NextStep.toolCall ("transfer") extraParams ("because")

/-- Raw params supplying `amount` twice with different values. -/
def dupParams : List RawParam := [⟨"amount", "1"⟩, ⟨"to", "0xABC"⟩, ⟨"amount", "2"⟩]

/-- A tool call with the duplicated `amount` parameter. -/
def stepDupAmount : NextStep := NextStep.toolCall ("transfer") dupParams ("because")

/-- A tool name absent from the catalog. -/
def stepNoSuchTool : NextStep := NextStep.toolCall ("nope") [] ("because")

/-- A finished decision with answer text `42`. -/
def stepDone : NextStep := NextStep.done ("42")

/-- A reasoning engine for the `executeAgent` variants with a fixed parse. -/
def stepEngineT (step : NextStep) : ReasoningEngineT :=
  ⟨fun _ _ _ _ => "composed", fun _ => step⟩

/-- Globals for the `executeAgent` variants. -/
def execStateFor (step : NextStep) : ExecState :=
  ⟨[("model", sampleLlm)], [(Engines.RE_ACT, stepEngineT step)], sampleAbi⟩

/-- Looking a key up after a dict store: the stored value for that key,
anything else unchanged. -/
theorem pyGet_pySet {α : Type} (d : List (String × α)) (k : String) (v : α) (n : String) :
    pyGet (pySet d k v) n = if n = k then some v else pyGet d n := by
  induction d with
  | nil =>
    by_cases h : n = k
    · simp only [pySet, pyGet, if_pos h.symm, if_pos h]
    · simp only [pySet, pyGet, if_neg (fun hk : k = n => h hk.symm), if_neg h]
  | cons p rest ih =>
    by_cases hpk : p.1 = k
    · by_cases h : n = k
      · simp only [pySet, if_pos hpk, pyGet, if_pos h.symm, if_pos h]
      · simp only [pySet, if_pos hpk, pyGet, if_neg (fun hk : k = n => h hk.symm), if_neg h,
          if_neg (fun hpn : p.1 = n => h (hpk.symm.trans hpn).symm)]
    · by_cases hpn : p.1 = n
      · simp only [pySet, if_neg hpk, pyGet, if_pos hpn, ih,
          if_neg (fun hnk : n = k => hpk (hpn.trans hnk))]
      · simp only [pySet, if_neg hpk, pyGet, if_neg hpn, ih]

/-- A dict lookup succeeds exactly when the key is among the stored keys. -/
theorem pyGet_isSome_iff {α : Type} (d : List (String × α)) (k : String) :
    (pyGet d k).isSome ↔ k ∈ d.map Prod.fst := by
  induction d with
  | nil => simp [pyGet]
  | cons p rest ih =>
    by_cases h : p.1 = k
    · simp [pyGet, h]
    · simp only [pyGet, if_neg h, List.map_cons, List.mem_cons, ih]
      constructor
      · intro hm
        exact Or.inr hm
      · rintro (hk | hm)
        · exact absurd hk.symm h
        · exact hm

/-- Keys present after a store: the stored key plus the previous keys. -/
theorem mem_keys_pySet {α : Type} (d : List (String × α)) (k : String) (v : α) (n : String) :
    n ∈ (pySet d k v).map Prod.fst ↔ n = k ∨ n ∈ d.map Prod.fst := by
  induction d with
  | nil => simp [pySet]
  | cons p rest ih =>
    obtain ⟨p1, p2⟩ := p
    by_cases h : p1 = k
    · subst h
      simp [pySet]
    · simp [pySet, h, ih]
      tauto

/-- Keys of a dict-comprehension fold: the accumulator's keys plus the
listed keys. -/
theorem mem_keys_foldl_pySet {α : Type} (l : List (String × α)) :
    ∀ (acc : List (String × α)) (n : String),
      n ∈ (l.foldl (fun d p => pySet d p.1 p.2) acc).map Prod.fst ↔
        n ∈ acc.map Prod.fst ∨ n ∈ l.map Prod.fst := by
  induction l with
  | nil => intro acc n; simp
  | cons p rest ih =>
    intro acc n
    simp only [List.foldl_cons, ih, mem_keys_pySet, List.map_cons, List.mem_cons]
    tauto

/-- A dict comprehension stores exactly the listed keys. -/
theorem mem_keys_pyDict {α : Type} (l : List (String × α)) (n : String) :
    n ∈ (pyDict l).map Prod.fst ↔ n ∈ l.map Prod.fst := by
  simpa [pyDict] using mem_keys_foldl_pySet l [] n

/-- The schema-index dict of a tool resolves exactly the names declared in
the tool's parameter schema. -/
theorem pyGet_toolInputByNameOf_isSome (tool : ToolMetadata) (n : String) :
    (pyGet (toolInputByNameOf tool) n).isSome ↔
      n ∈ tool.inputDescription.paramDescriptions.map ParamDescription.name := by
  rw [pyGet_isSome_iff, toolInputByNameOf, mem_keys_pyDict]
  simp [List.map_map, Function.comp]

/-- A store under a fresh key appends the entry at the end of the dict. -/
theorem pySet_of_not_mem {α : Type} (d : List (String × α)) (k : String) (v : α)
    (h : ∀ q ∈ d, q.1 ≠ k) : pySet d k v = d ++ [(k, v)] := by
  induction d with
  | nil => simp [pySet]
  | cons p rest ih =>
    have hp : p.1 ≠ k := h p (List.mem_cons_self p rest)
    simp [pySet, hp, ih (fun q hq => h q (List.mem_cons_of_mem p hq))]

/-- When every raw parameter's name resolves in the schema dict, the
resolution loop succeeds and returns exactly the dict obtained by folding
the per-parameter stores over the accumulator. -/
theorem resolveParams_eval (abi : Abi) (sd : List (String × ParamDescription)) :
    ∀ (rps : List RawParam) (acc : List (String × IERCAgentTool.ParamValue)),
      (∀ p ∈ rps, (pyGet sd p.name).isSome) →
      (resolveParams abi sd rps acc).1 =
        Except.ok (rps.foldl (fun d p => pySet d p.name (resolveOne abi sd p)) acc) := by
  intro rps
  induction rps with
  | nil =>
    intro acc _
    simp [resolveParams]
  | cons p rest ih =>
    intro acc h
    have hp := h p (List.mem_cons_self p rest)
    obtain ⟨d, hd⟩ := Option.isSome_iff_exists.mp hp
    have hone : resolveOne abi sd p = ⟨d.type, abi.encode p.value d.type⟩ := by
      simp [resolveOne, hd]
    simp only [resolveParams, hd, List.foldl_cons, hone]
    exact ih (pySet acc p.name ⟨d.type, abi.encode p.value d.type⟩)
      (fun q hq => h q (List.mem_cons_of_mem p hq))

/-- When an earlier-resolvable prefix is followed by a raw parameter whose
name the schema dict does not know, the loop raises `KeyError` with that
name. -/
theorem resolveParams_keyError (abi : Abi) (sd : List (String × ParamDescription)) :
    ∀ (front : List RawParam) (bad : RawParam) (rest : List RawParam)
      (acc : List (String × IERCAgentTool.ParamValue)),
      (∀ p ∈ front, (pyGet sd p.name).isSome) →
      pyGet sd bad.name = none →
      (resolveParams abi sd (front ++ bad :: rest) acc).1 =
        Except.error (IterError.keyError bad.name) := by
  intro front
  induction front with
  | nil =>
    intro bad rest acc _ hbad
    simp [resolveParams, hbad]
  | cons p tl ih =>
    intro bad rest acc h hbad
    have hp := h p (List.mem_cons_self p tl)
    obtain ⟨d, hd⟩ := Option.isSome_iff_exists.mp hp
    simp only [List.cons_append, resolveParams, hd]
    exact ih bad rest _ (fun q hq => h q (List.mem_cons_of_mem p hq)) hbad

/-- Folding stores for raw params with pairwise-distinct names, all fresh
for the accumulator, appends the entries in raw order. -/
theorem foldl_pySet_of_nodup {α : Type} (f : RawParam → α) :
    ∀ (rps : List RawParam) (acc : List (String × α)),
      (rps.map RawParam.name).Nodup →
      (∀ p ∈ rps, ∀ q ∈ acc, q.1 ≠ p.name) →
      rps.foldl (fun d p => pySet d p.name (f p)) acc =
        acc ++ rps.map (fun p => (p.name, f p)) := by
  intro rps
  induction rps with
  | nil =>
    intro acc _ _
    simp
  | cons p rest ih =>
    intro acc hnd hdisj
    have hnd' : (rest.map RawParam.name).Nodup := by
      simpa using hnd.of_cons
    have hpfresh : ∀ q ∈ acc, q.1 ≠ p.name :=
      fun q hq => hdisj p (List.mem_cons_self p rest) q hq
    have hnotin : p.name ∉ rest.map RawParam.name := by
      have := hnd
      simp only [List.map_cons, List.nodup_cons] at this
      exact this.1
    simp only [List.foldl_cons, List.map_cons]
    rw [pySet_of_not_mem acc p.name (f p) hpfresh]
    rw [ih (acc ++ [(p.name, f p)]) hnd' ?fresh]
    · simp
    case fresh =>
      intro r hr q hq
      rcases List.mem_append.mp hq with hq | hq
      · exact hdisj r (List.mem_cons_of_mem p hr) q hq
      · have hq1 : q = (p.name, f p) := by simpa using hq
        subst hq1
        intro hcon
        have hpr : p.name = r.name := hcon
        refine hnotin ?_
        rw [hpr]
        exact List.mem_map_of_mem RawParam.name hr

/-- Looking up a name in the folded store dict yields the stored value of
the last raw occurrence of that name, or falls through to the accumulator
when the name never occurs. -/
theorem pyGet_foldl_pySet {α : Type} (f : RawParam → α) :
    ∀ (rps : List RawParam) (acc : List (String × α)) (n : String),
      pyGet (rps.foldl (fun d p => pySet d p.name (f p)) acc) n =
        match (rps.filter (fun p => p.name = n)).getLast? with
        | some q => some (f q)
        | none => pyGet acc n := by
  intro rps
  induction rps with
  | nil =>
    intro acc n
    simp
  | cons p rest ih =>
    intro acc n
    simp only [List.foldl_cons, ih]
    by_cases h : p.name = n
    · cases hl : rest.filter (fun q => q.name = n) with
      | nil => simp [List.filter_cons, h, hl, pyGet_pySet]
      | cons q tl =>
        rw [List.getLast?_eq_getLast_of_ne_nil (List.cons_ne_nil q tl)]
        simp [List.filter_cons, h, hl, List.getLast?_cons_cons,
          List.getLast?_eq_getLast_of_ne_nil (List.cons_ne_nil q tl)]
    · cases hl : rest.filter (fun q => q.name = n) with
      | nil => simp [List.filter_cons, h, hl, pyGet_pySet, Ne.symm h]
      | cons q tl =>
        rw [List.getLast?_eq_getLast_of_ne_nil (List.cons_ne_nil q tl)]
        simp [List.filter_cons, h, hl,
          List.getLast?_eq_getLast_of_ne_nil (List.cons_ne_nil q tl)]

/-- Reduction of the iteration on the tool-call path when the resolution
loop succeeds: the pending result carries the resolved dict and the
aggregate encode over its values, and the trace ends with the aggregate
encode event. -/
theorem runNextIteration_toolCall_ok (s : IterState) (modelId basePrompt : String)
    (tools : List Tool) (agentReasoning prompt : String) (engine : ReasoningEngine)
    (llm : Llm) (toolName : String) (rawParams : List RawParam) (reasoning : String)
    (tool : ToolMetadata) (parsedParams : List (String × IERCAgentTool.ParamValue))
    (hre : pyGet s.reasoningRegistry Engines.RE_ACT = some engine)
    (hllm : pyGet s.modelRegistry modelId = some llm)
    (hparse : engine.parse (llm.run (engine.buildPrompt basePrompt (toolsMetadataOf tools)
      agentReasoning prompt)) = NextStep.toolCall toolName rawParams reasoning)
    (htool : pyGet (toolsByNameOf tools) toolName = some tool)
    (hres : (resolveParams s.abi (toolInputByNameOf tool) rawParams []).1 =
      Except.ok parsedParams) :
    (runNextIteration s modelId basePrompt tools agentReasoning prompt).result =
        Except.ok (AgentIterationResult.pending tool
          ⟨parsedParams, s.abi.encodeAll (parsedParams.map (fun p => p.2.value))⟩ reasoning) ∧
      (runNextIteration s modelId basePrompt tools agentReasoning prompt).events =
        [Event.buildPromptCalled, Event.llmRunCalled, Event.parseCalled,
            Event.toolLookup toolName] ++
          (resolveParams s.abi (toolInputByNameOf tool) rawParams []).2 ++
          [Event.encodeAllCalled] := by
  simp [runNextIteration, hre, hllm, hparse, htool, hres]

/-- Reduction of the iteration on the tool-call path when the resolution
loop raises: the exception escapes unchanged. -/
theorem runNextIteration_toolCall_err (s : IterState) (modelId basePrompt : String)
    (tools : List Tool) (agentReasoning prompt : String) (engine : ReasoningEngine)
    (llm : Llm) (toolName : String) (rawParams : List RawParam) (reasoning : String)
    (tool : ToolMetadata) (e : IterError)
    (hre : pyGet s.reasoningRegistry Engines.RE_ACT = some engine)
    (hllm : pyGet s.modelRegistry modelId = some llm)
    (hparse : engine.parse (llm.run (engine.buildPrompt basePrompt (toolsMetadataOf tools)
      agentReasoning prompt)) = NextStep.toolCall toolName rawParams reasoning)
    (htool : pyGet (toolsByNameOf tools) toolName = some tool)
    (hres : (resolveParams s.abi (toolInputByNameOf tool) rawParams []).1 =
      Except.error e) :
    (runNextIteration s modelId basePrompt tools agentReasoning prompt).result =
      Except.error e := by
  simp [runNextIteration, hre, hllm, hparse, htool, hres]

/-- Claim C4, counterexample: with the model identifier absent from the
registry (and the reasoning engine present), the iteration does not fail
with `UnknownModel` before the prompt is built — it builds the prompt
(`buildPromptCalled` is traced) and then fails with the `AttributeError`
from invoking `run` on the `None` returned by `dict.get`. -/
theorem claimC4_counterexample :
    (runNextIteration (noLlmStateFor stepDone) ("model") ("base") [transferTool] ("") ("task")).result =
        Except.error (IterError.attributeError ("run")) ∧
      (runNextIteration (noLlmStateFor stepDone) ("model") ("base") [transferTool] ("") ("task")).result ≠
        Except.error (IterError.unknownModel ("model")) ∧
      Event.buildPromptCalled ∈
        (runNextIteration (noLlmStateFor stepDone) ("model") ("base") [transferTool] ("") ("task")).events := by
  exact ⟨rfl, by decide, by decide⟩

/-- Claim C4 (amended): for every model identifier not present in the model
registry (with the reasoning engine resolvable), the registry lookup
returns `None` silently, the prompt IS built, and the iteration then fails
with the bare `AttributeError` raised by calling `run` on `None`; the
model's `run` itself is never invoked (the trace is exactly the
prompt-build event). -/
theorem claimC4_prompt_built (s : IterState) (modelId basePrompt : String) (tools : List Tool)
    (agentReasoning prompt : String) (engine : ReasoningEngine)
    (hre : pyGet s.reasoningRegistry Engines.RE_ACT = some engine)
    (hllm : pyGet s.modelRegistry modelId = none) :
    (runNextIteration s modelId basePrompt tools agentReasoning prompt).result =
        Except.error (IterError.attributeError ("run")) ∧
      (runNextIteration s modelId basePrompt tools agentReasoning prompt).events =
        [Event.buildPromptCalled] := by
  simp [runNextIteration, hre, hllm]

/-- Witness instantiating claim C4's amended theorem at a concrete input. -/
theorem claimC4_witness :
    (runNextIteration (noLlmStateFor stepDone) ("m2") ("base") [] ("") ("task")).result =
        Except.error (IterError.attributeError ("run")) ∧
      (runNextIteration (noLlmStateFor stepDone) ("m2") ("base") [] ("") ("task")).events =
        [Event.buildPromptCalled] :=
  claimC4_prompt_built (noLlmStateFor stepDone) ("m2") ("base") [] ("") ("task")
    (stepEngine stepDone) rfl rfl

/-- Claim C5, counterexample: a parsed tool name absent from the supplied
catalog does not produce the structured `UnknownTool` error; the code's
`toolsByName.get` returns `None` and the subsequent attribute access
raises a bare `AttributeError`. -/
theorem claimC5_counterexample :
    (runNextIteration (stateFor stepNoSuchTool) ("model") ("base") [transferTool] ("") ("task")).result =
        Except.error (IterError.attributeError ("inputDescription")) ∧
      (runNextIteration (stateFor stepNoSuchTool) ("model") ("base") [transferTool] ("") ("task")).result ≠
        Except.error (IterError.unknownTool ("nope")) := by
  exact ⟨rfl, by decide⟩

/-- Claim C5 (amended): for every parsed `ToolInvocation` whose tool name
matches no tool in the supplied catalog, the iteration fails with the bare
`AttributeError` from accessing `inputDescription` on the `None` returned
by `toolsByName.get` — not with a structured `UnknownTool`. -/
theorem claimC5_attributeError (s : IterState) (modelId basePrompt : String) (tools : List Tool)
    (agentReasoning prompt : String) (engine : ReasoningEngine) (llm : Llm)
    (toolName : String) (rawParams : List RawParam) (reasoning : String)
    (hre : pyGet s.reasoningRegistry Engines.RE_ACT = some engine)
    (hllm : pyGet s.modelRegistry modelId = some llm)
    (hparse : engine.parse (llm.run (engine.buildPrompt basePrompt (toolsMetadataOf tools)
      agentReasoning prompt)) = NextStep.toolCall toolName rawParams reasoning)
    (htool : pyGet (toolsByNameOf tools) toolName = none) :
    (runNextIteration s modelId basePrompt tools agentReasoning prompt).result =
      Except.error (IterError.attributeError ("inputDescription")) := by
  simp [runNextIteration, hre, hllm, hparse, htool]

/-- Witness instantiating claim C5's amended theorem at a concrete input. -/
theorem claimC5_witness :
    (runNextIteration (stateFor stepNoSuchTool) ("model") ("hello") [transferTool] ("") ("go")).result =
      Except.error (IterError.attributeError ("inputDescription")) :=
  claimC5_attributeError (stateFor stepNoSuchTool) ("model") ("hello") [transferTool] ("") ("go")
    (stepEngine stepNoSuchTool) sampleLlm ("nope") [] ("because") rfl rfl rfl rfl

/-- Claim C6 (confirmed): when the model output parses to a finished step
with answer text `a`, the iteration returns the final-answer result whose
text is `a`, and the trace holds only the prompt-build, model-run and
parse events — no tool lookup and no parameter encoding occur. -/
theorem claimC6_final_answer (s : IterState) (modelId basePrompt : String) (tools : List Tool)
    (agentReasoning prompt : String) (engine : ReasoningEngine) (llm : Llm) (a : String)
    (hre : pyGet s.reasoningRegistry Engines.RE_ACT = some engine)
    (hllm : pyGet s.modelRegistry modelId = some llm)
    (hparse : engine.parse (llm.run (engine.buildPrompt basePrompt (toolsMetadataOf tools)
      agentReasoning prompt)) = NextStep.done a) :
    (runNextIteration s modelId basePrompt tools agentReasoning prompt).result =
        Except.ok (AgentIterationResult.final a) ∧
      (runNextIteration s modelId basePrompt tools agentReasoning prompt).events =
        [Event.buildPromptCalled, Event.llmRunCalled, Event.parseCalled] := by
  simp [runNextIteration, hre, hllm, hparse]

/-- Witness instantiating claim C6's theorem at a concrete input. -/
theorem claimC6_witness :
    (runNextIteration (stateFor stepDone) ("model") ("base") [transferTool] ("") ("task")).result =
        Except.ok (AgentIterationResult.final ("42")) ∧
      (runNextIteration (stateFor stepDone) ("model") ("base") [transferTool] ("") ("task")).events =
        [Event.buildPromptCalled, Event.llmRunCalled, Event.parseCalled] :=
  claimC6_final_answer (stateFor stepDone) ("model") ("base") [transferTool] ("") ("task")
    (stepEngine stepDone) sampleLlm ("42") rfl rfl rfl

/-- Claim C8 (confirmed): an iteration never mutates the supplied tool
catalog or the registries; on every path (success and every failure path)
the threaded globals and catalog come back unchanged. -/
theorem claimC8_no_mutation (s : IterState) (modelId basePrompt : String) (tools : List Tool)
    (agentReasoning prompt : String) :
    (runNextIteration s modelId basePrompt tools agentReasoning prompt).state = s ∧
      (runNextIteration s modelId basePrompt tools agentReasoning prompt).tools = tools := by
  constructor
  · unfold runNextIteration
    dsimp only
    repeat' split
    all_goals rfl
  · unfold runNextIteration
    dsimp only
    repeat' split
    all_goals rfl

/-- Claim C1, counterexample: on the specification's own scenario (schema
order `to, amount`; raw order `amount, to`) the produced aggregate payload
follows the raw-input order, and differs from the schema-declared-order
aggregate the claim prescribes. -/
theorem claimC1_counterexample :
    (runNextIteration (stateFor stepSchemaOrderSwap) ("model") ("base") [transferTool] ("") ("task")).result =
        Except.ok (AgentIterationResult.pending transferMeta
          ⟨[(("amount"), ⟨("integer"), ("100:integer")⟩), (("to"), ⟨("address"), ("0xABC:address")⟩)],
            ("100:integer,0xABC:address")⟩ ("because")) ∧
      ("100:integer,0xABC:address") ≠ sampleAbi.encodeAll
        [sampleAbi.encode ("0xABC") ("address"), sampleAbi.encode ("100") ("integer")] := by
  exact ⟨rfl, by decide⟩

/-- Claim C1 (amended): for raw parameter names that are exactly the schema
names in any order (schema names pairwise distinct), the iteration succeeds
and the aggregate `encodedPayload` is the aggregate encoding of the
per-parameter encoded values taken in RAW-INPUT order — not in the schema's
declared order. -/
theorem claimC1_payload_raw_order (s : IterState) (modelId basePrompt : String)
    (tools : List Tool) (agentReasoning prompt : String) (engine : ReasoningEngine)
    (llm : Llm) (toolName : String) (rawParams : List RawParam) (reasoning : String)
    (tool : ToolMetadata)
    (hre : pyGet s.reasoningRegistry Engines.RE_ACT = some engine)
    (hllm : pyGet s.modelRegistry modelId = some llm)
    (hparse : engine.parse (llm.run (engine.buildPrompt basePrompt (toolsMetadataOf tools)
      agentReasoning prompt)) = NextStep.toolCall toolName rawParams reasoning)
    (htool : pyGet (toolsByNameOf tools) toolName = some tool)
    (hschema : (tool.inputDescription.paramDescriptions.map ParamDescription.name).Nodup)
    (hperm : (rawParams.map RawParam.name).Perm
      (tool.inputDescription.paramDescriptions.map ParamDescription.name)) :
    (runNextIteration s modelId basePrompt tools agentReasoning prompt).result =
      Except.ok (AgentIterationResult.pending tool
        ⟨rawParams.map (fun p => (p.name, resolveOne s.abi (toolInputByNameOf tool) p)),
          s.abi.encodeAll (rawParams.map
            (fun p => (resolveOne s.abi (toolInputByNameOf tool) p).value))⟩
        reasoning) := by
  have hfound : ∀ p ∈ rawParams, (pyGet (toolInputByNameOf tool) p.name).isSome := by
    intro p hp
    rw [pyGet_toolInputByNameOf_isSome]
    exact hperm.subset (List.mem_map_of_mem RawParam.name hp)
  have hnodup : (rawParams.map RawParam.name).Nodup := hperm.symm.nodup hschema
  have heval := resolveParams_eval s.abi (toolInputByNameOf tool) rawParams [] hfound
  rw [foldl_pySet_of_nodup (resolveOne s.abi (toolInputByNameOf tool)) rawParams [] hnodup
    (by intro p hp q hq; cases hq)] at heval
  simp only [List.nil_append] at heval
  have hmain := runNextIteration_toolCall_ok s modelId basePrompt tools agentReasoning prompt
    engine llm toolName rawParams reasoning tool _ hre hllm hparse htool heval
  rw [hmain.1]
  simp [List.map_map, Function.comp_def]

/-- Witness instantiating claim C1's amended theorem at the swapped-order
scenario. -/
theorem claimC1_witness :
    (runNextIteration (stateFor stepSchemaOrderSwap) ("model") ("b2") [transferTool] ("") ("t2")).result =
      Except.ok (AgentIterationResult.pending transferMeta
        ⟨swapParams.map (fun p => (p.name, resolveOne sampleAbi (toolInputByNameOf transferMeta) p)),
          sampleAbi.encodeAll (swapParams.map
            (fun p => (resolveOne sampleAbi (toolInputByNameOf transferMeta) p).value))⟩
        ("because")) :=
  claimC1_payload_raw_order (stateFor stepSchemaOrderSwap) ("model") ("b2") [transferTool] ("") ("t2")
    (stepEngine stepSchemaOrderSwap) sampleLlm ("transfer") swapParams ("because") transferMeta
    rfl rfl rfl rfl (by decide) (by decide)

/-- Claim C2, counterexample: with the required `to` parameter absent from
the raw params, the iteration does not fail with `MissingParameter`; it
succeeds, encoding only the supplied `amount`. -/
theorem claimC2_counterexample :
    (runNextIteration (stateFor stepMissingTo) ("model") ("base") [transferTool] ("") ("task")).result =
        Except.ok (AgentIterationResult.pending transferMeta
          ⟨[(("amount"), ⟨("integer"), ("100:integer")⟩)], ("100:integer")⟩ ("because")) ∧
      (runNextIteration (stateFor stepMissingTo) ("model") ("base") [transferTool] ("") ("task")).result ≠
        Except.error (IterError.missingParameter ("to")) := by
  exact ⟨rfl, by decide⟩

/-- Claim C2 (amended): the code performs no missing-required-parameter
check. When every supplied raw name resolves in the schema but some schema
parameter has no raw entry, the iteration still succeeds, the aggregate
encode IS performed, and the unsupplied schema names are simply absent
from the resulting params mapping. -/
theorem claimC2_no_missing_check (s : IterState) (modelId basePrompt : String)
    (tools : List Tool) (agentReasoning prompt : String) (engine : ReasoningEngine)
    (llm : Llm) (toolName : String) (rawParams : List RawParam) (reasoning : String)
    (tool : ToolMetadata)
    (hre : pyGet s.reasoningRegistry Engines.RE_ACT = some engine)
    (hllm : pyGet s.modelRegistry modelId = some llm)
    (hparse : engine.parse (llm.run (engine.buildPrompt basePrompt (toolsMetadataOf tools)
      agentReasoning prompt)) = NextStep.toolCall toolName rawParams reasoning)
    (htool : pyGet (toolsByNameOf tools) toolName = some tool)
    (hfound : ∀ p ∈ rawParams, (pyGet (toolInputByNameOf tool) p.name).isSome)
    (hmiss : ∃ d ∈ tool.inputDescription.paramDescriptions,
      d.name ∉ rawParams.map RawParam.name) :
    ∃ parsedParams,
      (runNextIteration s modelId basePrompt tools agentReasoning prompt).result =
          Except.ok (AgentIterationResult.pending tool
            ⟨parsedParams, s.abi.encodeAll (parsedParams.map (fun p => p.2.value))⟩ reasoning) ∧
        Event.encodeAllCalled ∈
          (runNextIteration s modelId basePrompt tools agentReasoning prompt).events ∧
        ∀ d ∈ tool.inputDescription.paramDescriptions,
          d.name ∉ rawParams.map RawParam.name → pyGet parsedParams d.name = none := by
  have heval := resolveParams_eval s.abi (toolInputByNameOf tool) rawParams [] hfound
  have hmain := runNextIteration_toolCall_ok s modelId basePrompt tools agentReasoning prompt
    engine llm toolName rawParams reasoning tool _ hre hllm hparse htool heval
  refine ⟨_, hmain.1, ?_, ?_⟩
  · rw [hmain.2]
    simp
  · intro d hd hnot
    rw [pyGet_foldl_pySet]
    have hfil : rawParams.filter (fun p => p.name = d.name) = [] := by
      rw [List.filter_eq_nil_iff]
      intro p hp
      simp only [decide_eq_true_eq]
      intro hcon
      refine hnot ?_
      rw [← hcon]
      exact List.mem_map_of_mem RawParam.name hp
    rw [hfil]
    simp [pyGet]

/-- Witness instantiating claim C2's amended theorem at the missing-`to`
scenario. -/
theorem claimC2_witness :
    ∃ parsedParams,
      (runNextIteration (stateFor stepMissingTo) ("model") ("b2") [transferTool] ("") ("t2")).result =
          Except.ok (AgentIterationResult.pending transferMeta
            ⟨parsedParams, sampleAbi.encodeAll (parsedParams.map (fun p => p.2.value))⟩ ("because")) ∧
        Event.encodeAllCalled ∈
          (runNextIteration (stateFor stepMissingTo) ("model") ("b2") [transferTool] ("") ("t2")).events ∧
        ∀ d ∈ transferMeta.inputDescription.paramDescriptions,
          d.name ∉ missingParams.map RawParam.name → pyGet parsedParams d.name = none :=
  claimC2_no_missing_check (stateFor stepMissingTo) ("model") ("b2") [transferTool] ("") ("t2")
    (stepEngine stepMissingTo) sampleLlm ("transfer") missingParams ("because") transferMeta
    rfl rfl rfl rfl (by decide) (by decide)

/-- Claim C3, counterexample: the extra raw parameter `memo` (absent from
the schema) makes the iteration fail with the bare `KeyError` from the
`toolInputByName[param.name]` lookup, not with a structured
`UnknownParameter`. -/
theorem claimC3_counterexample :
    (runNextIteration (stateFor stepExtraMemo) ("model") ("base") [transferTool] ("") ("task")).result =
        Except.error (IterError.keyError ("memo")) ∧
      (runNextIteration (stateFor stepExtraMemo) ("model") ("base") [transferTool] ("") ("task")).result ≠
        Except.error (IterError.unknownParameter ("memo")) := by
  exact ⟨rfl, by decide⟩

/-- Claim C3 (amended): when the raw parameter list contains a name absent
from the invoked tool's schema (all earlier raw names resolving), the
iteration aborts with the bare `KeyError` naming that parameter — not with
the structured `UnknownParameter` — and no `ToolInput` or partial
iteration result is returned (the outcome is that error). -/
theorem claimC3_keyError (s : IterState) (modelId basePrompt : String)
    (tools : List Tool) (agentReasoning prompt : String) (engine : ReasoningEngine)
    (llm : Llm) (toolName : String) (reasoning : String) (tool : ToolMetadata)
    (front : List RawParam) (bad : RawParam) (post : List RawParam)
    (hre : pyGet s.reasoningRegistry Engines.RE_ACT = some engine)
    (hllm : pyGet s.modelRegistry modelId = some llm)
    (hparse : engine.parse (llm.run (engine.buildPrompt basePrompt (toolsMetadataOf tools)
      agentReasoning prompt)) = NextStep.toolCall toolName (front ++ bad :: post) reasoning)
    (htool : pyGet (toolsByNameOf tools) toolName = some tool)
    (hfront : ∀ p ∈ front, (pyGet (toolInputByNameOf tool) p.name).isSome)
    (hbad : pyGet (toolInputByNameOf tool) bad.name = none) :
    (runNextIteration s modelId basePrompt tools agentReasoning prompt).result =
      Except.error (IterError.keyError bad.name) := by
  have herr := resolveParams_keyError s.abi (toolInputByNameOf tool) front bad post [] hfront hbad
  exact runNextIteration_toolCall_err s modelId basePrompt tools agentReasoning prompt
    engine llm toolName (front ++ bad :: post) reasoning tool
    (IterError.keyError bad.name) hre hllm hparse htool herr

/-- Witness instantiating claim C3's amended theorem at the extra-`memo`
scenario. -/
theorem claimC3_witness :
    (runNextIteration (stateFor stepExtraMemo) ("model") ("b2") [transferTool] ("") ("t2")).result =
      Except.error (IterError.keyError ("memo")) :=
  claimC3_keyError (stateFor stepExtraMemo) ("model") ("b2") [transferTool] ("") ("t2")
    (stepEngine stepExtraMemo) sampleLlm ("transfer") ("because") transferMeta
    [⟨("amount"), ("100")⟩, ⟨("to"), ("0xABC")⟩] ⟨("memo"), ("hi")⟩ []
    rfl rfl rfl rfl (by decide) rfl

/-- Claim C7 (confirmed): the resolver-and-encoder stage is a pure function
of the tool, the raw params of the parsed step, and the encoder; two runs
on identical inputs yield byte-identical `ToolInput` values. -/
theorem claimC7_deterministic (abi : Abi) (tool : ToolMetadata) (rawParams : List RawParam)
    (r1 r2 : Except IterError IERCAgentTool.Input)
    (h1 : r1 = resolveAndEncode abi tool rawParams)
    (h2 : r2 = resolveAndEncode abi tool rawParams) : r1 = r2 :=
  h1.trans h2.symm

/-- Witness instantiating claim C7's theorem on the transfer scenario. -/
theorem claimC7_witness :
    resolveAndEncode sampleAbi transferMeta swapParams =
      resolveAndEncode sampleAbi transferMeta swapParams :=
  claimC7_deterministic sampleAbi transferMeta swapParams
    (resolveAndEncode sampleAbi transferMeta swapParams)
    (resolveAndEncode sampleAbi transferMeta swapParams) rfl rfl

/-- Claim C9 (confirmed): when a raw parameter name occurs more than once
(every occurrence's name in the schema), the iteration raises no error and
the resulting params mapping holds, for that name, the encoding of the
value from the LAST raw occurrence (Python dict insertion overwrites). -/
theorem claimC9_duplicate_last_wins (s : IterState) (modelId basePrompt : String)
    (tools : List Tool) (agentReasoning prompt : String) (engine : ReasoningEngine)
    (llm : Llm) (toolName : String) (rawParams : List RawParam) (reasoning : String)
    (tool : ToolMetadata) (n : String) (q : RawParam)
    (hre : pyGet s.reasoningRegistry Engines.RE_ACT = some engine)
    (hllm : pyGet s.modelRegistry modelId = some llm)
    (hparse : engine.parse (llm.run (engine.buildPrompt basePrompt (toolsMetadataOf tools)
      agentReasoning prompt)) = NextStep.toolCall toolName rawParams reasoning)
    (htool : pyGet (toolsByNameOf tools) toolName = some tool)
    (hfound : ∀ p ∈ rawParams, (pyGet (toolInputByNameOf tool) p.name).isSome)
    (hmulti : 1 < (rawParams.filter (fun p => p.name = n)).length)
    (hlast : (rawParams.filter (fun p => p.name = n)).getLast? = some q) :
    ∃ parsedParams,
      (runNextIteration s modelId basePrompt tools agentReasoning prompt).result =
          Except.ok (AgentIterationResult.pending tool
            ⟨parsedParams, s.abi.encodeAll (parsedParams.map (fun p => p.2.value))⟩ reasoning) ∧
        pyGet parsedParams n = some (resolveOne s.abi (toolInputByNameOf tool) q) := by
  have heval := resolveParams_eval s.abi (toolInputByNameOf tool) rawParams [] hfound
  have hmain := runNextIteration_toolCall_ok s modelId basePrompt tools agentReasoning prompt
    engine llm toolName rawParams reasoning tool _ hre hllm hparse htool heval
  refine ⟨_, hmain.1, ?_⟩
  rw [pyGet_foldl_pySet, hlast]

/-- Witness instantiating claim C9's theorem at the duplicate-`amount`
scenario: the stored value is the encoding of the second occurrence. -/
theorem claimC9_witness :
    ∃ parsedParams,
      (runNextIteration (stateFor stepDupAmount) ("model") ("b2") [transferTool] ("") ("t2")).result =
          Except.ok (AgentIterationResult.pending transferMeta
            ⟨parsedParams, sampleAbi.encodeAll (parsedParams.map (fun p => p.2.value))⟩ ("because")) ∧
        pyGet parsedParams ("amount") =
          some (resolveOne sampleAbi (toolInputByNameOf transferMeta) ⟨("amount"), ("2")⟩) :=
  claimC9_duplicate_last_wins (stateFor stepDupAmount) ("model") ("b2") [transferTool] ("") ("t2")
    (stepEngine stepDupAmount) sampleLlm ("transfer") dupParams ("because") transferMeta
    ("amount") ⟨("amount"), ("2")⟩ rfl rfl rfl rfl (by decide) (by decide) (by decide)

/-- Claim C10, counterexample: on a concrete tool-call input the two
`executeAgent` variants return different results (one wraps the params and
aggregate payload in `toolInput`, the other returns bare `params`). -/
theorem claimC10_counterexample :
    AgentExecitor.executeAgent (execStateFor stepSchemaOrderSwap) ("model") ("name") ("agent")
        [transferTool] ("") ("task") ≠
      Precompile.executeAgent (execStateFor stepSchemaOrderSwap) ("model") ("name") ("agent")
        [transferTool] ("") ("task") := by
  decide

/-- Claim C10 (amended): the two `executeAgent` variants agree on every
input up to the shape of the tool-call payload: same errors, same
final-answer results, same tool, reasoning and resolved params mapping —
but the agent_execitor_precompile.py variant returns the mapping inside
`toolInput` together with the aggregate `abiEncodedParams`, while the
precompile.py variant returns the bare mapping in `params` and computes no
aggregate. -/
theorem claimC10_agree (s : ExecState) (modelId agentName agentDescription : String)
    (tools : List Tool) (agentReasoning prompt : String) :
    agreeExec
      (AgentExecitor.executeAgent s modelId agentName agentDescription tools agentReasoning prompt)
      (Precompile.executeAgent s modelId agentName agentDescription tools agentReasoning prompt) := by
  unfold AgentExecitor.executeAgent Precompile.executeAgent
  dsimp only
  cases hre : pyGet s.reasoningRegistry Engines.RE_ACT with
  | none => simp [agreeExec]
  | some engine =>
    cases hllm : pyGet s.modelRegistry modelId with
    | none => simp [agreeExec]
    | some llmHandle =>
      cases hstep : engine.parse (llmHandle.run (engine.buildPrompt agentDescription tools
        agentReasoning prompt)) with
      | done answer => simp [agreeExec, AgentExecResult.final, hstep]
      | toolCall toolName rawParams reasoning =>
        cases htool : pyGet (rawToolsByNameOf tools) toolName with
        | none => simp [agreeExec, hstep, htool]
        | some tool =>
          cases hres : (resolveParams s.abi (rawToolInputByNameOf tool) rawParams []).1 with
          | error e => simp [agreeExec, hstep, htool, hres]
          | ok parsedParams =>
            simp [agreeExec, hstep, htool, hres, AgentExecResult.pendingWithInput,
              AgentExecResult.pendingWithParams]
